import Mathlib

/-!
Verification of the `bevy_ascii_terminal` grid-to-mesh renderer.

The Rust sources under `src/renderer/` (`font.rs`, `material.rs`, `mod.rs`)
are embedded shallowly below: machine integers (`u32`) become `Nat` (their
arithmetic here never overflows and Rust `/` on `u32` is truncating division,
matching `Nat` division), Rust `Option`/panics become `Option`, asset stores
become lookup functions, and Bevy handles become their `String` asset ids.

The mesh-builder modules (`renderer_vertex_data.rs`, `renderer_tile_data.rs`),
the glyph mapping (`glyph_mapping.rs`) and the tile grid are declared by
`renderer/mod.rs` but their sources are not visible; those components are
modelled from the specification, and each such definition is marked
`Modelled from the spec:` in its doc comment.
-/

/-- RGBA color, mirroring Bevy's `Color` as four channels. Channel values are
modelled as rationals (the float arithmetic of the renderer is not exercised
by any arithmetic identity proved here). -/
structure Color where
  r : ℚ
  g : ℚ
  b : ℚ
  a : ℚ
deriving DecidableEq

/-- Bevy's `Color::BLACK`. -/
def Color.BLACK : Color := ⟨0, 0, 0, 1⟩

/-- Bevy's `Color::WHITE`. -/
def Color.WHITE : Color := ⟨1, 1, 1, 1⟩

/-- A GPU texture: the embedding only needs its pixel dimensions, as in
`Texture::size` (`width`, `height`). -/
structure Texture where
  width : Nat
  height : Nat
deriving DecidableEq

/-- An asset store `Assets<Texture>`, modelled as a lookup from handle ids
(`String`) to textures; `none` is an absent asset. -/
def TextureAssets : Type := String → Option Texture

/-- `TerminalFont` from `renderer/font.rs`: the font component on a terminal
entity. Field names follow the source: `name`, `clip_color`, `tex_handle`
(the `Handle<Texture>`, modelled by its asset id), `pixels_per_unit`. -/
structure TerminalFont where
  name : String
  clip_color : Color
  tex_handle : String
  pixels_per_unit : Nat
deriving DecidableEq

/-- `DEFAULT_FONT_NAME` from `renderer/font.rs`. -/
def DEFAULT_FONT_NAME : String := "px437_8x8.png"

/-- `impl Default for TerminalFont` from `renderer/font.rs`: default name,
black clip color, default texture handle, zero `pixels_per_unit`. -/
def TerminalFont.default : TerminalFont :=
  { name := DEFAULT_FONT_NAME
    clip_color := Color.BLACK
    tex_handle := ""
    pixels_per_unit := 0 }

/-- `TerminalFont::change_font` from `renderer/font.rs`: overwrites the
`name` field with the given font name. -/
def TerminalFont.change_font (f : TerminalFont) (font_name : String) : TerminalFont :=
  { f with name := font_name }

/-- `TerminalFont::change_clip_color` from `renderer/font.rs`. -/
def TerminalFont.change_clip_color (f : TerminalFont) (color : Color) : TerminalFont :=
  { f with clip_color := color }

/-- `TerminalFont::from_texture` from `renderer/font.rs`. The source looks the
texture up in `Assets<Texture>` and `unwrap`s (modelled: `none` on a missing
asset), fixes `tile_count = (16,16)`, and computes
`pixels_per_tile = (tex_size / tile_count).y` with truncating `u32` division.
All remaining fields come from `Default::default()`. No divisibility check of
any kind is performed on the texture dimensions. -/
def TerminalFont.from_texture (name : String) (tex_handle : String)
    (textures : TextureAssets) : Option TerminalFont :=
  match textures tex_handle with
  | none => none
  | some texture =>
    some { name := name
           clip_color := TerminalFont.default.clip_color
           tex_handle := tex_handle
           pixels_per_unit := texture.height / 16 }

/-- `TerminalFonts` from `renderer/font.rs`: the font registry resource, a
`HashMap<String, TerminalFont>` modelled as a lookup function. -/
structure TerminalFonts where
  map : String → Option TerminalFont

/-- The `Default` (empty) font registry. -/
def TerminalFonts.empty : TerminalFonts := ⟨fun _ => none⟩

/-- `TerminalFonts::add` from `renderer/font.rs`:
`self.map.insert(font.name.clone(), font)` — keyed by the font's own name,
replacing any previous entry of that name. -/
def TerminalFonts.add (fonts : TerminalFonts) (font : TerminalFont) : TerminalFonts :=
  ⟨fun n => if n = font.name then some font else fonts.map n⟩

/-- `TerminalFonts::get` from `renderer/font.rs`: `&self.map[font_name]`.
The `HashMap` index panics when the key is absent; the panic is modelled as
`none`. No fallback entry of any kind is consulted. -/
def TerminalFonts.get (fonts : TerminalFonts) (font_name : String) : Option TerminalFont :=
  fonts.map font_name

/-- A registry populated by a sequence of `TerminalFonts::add` calls starting
from the empty registry (as `load_built_in_fonts` and the loading systems do). -/
def TerminalFonts.ofList (l : List TerminalFont) : TerminalFonts :=
  l.foldl TerminalFonts.add TerminalFonts.empty

/-- A 4-component float vector (Bevy `Vec4`), channels modelled as rationals. -/
structure Vec4 where
  x : ℚ
  y : ℚ
  z : ℚ
  w : ℚ
deriving DecidableEq

/-- `TerminalMaterial` from `renderer/material.rs`: clip color plus an
optional font-texture handle (`Option<Handle<Image>>`, handles modelled by
their asset ids). -/
structure TerminalMaterial where
  clip_color : Color
  texture : Option String
deriving DecidableEq

/-- `impl Default for TerminalMaterial`: black clip color, no texture. -/
def TerminalMaterial.default : TerminalMaterial :=
  { clip_color := Color.BLACK, texture := none }

/-- `impl From<Handle<Image>> for TerminalMaterial` from
`renderer/material.rs`: wraps the handle with a black clip color. -/
def TerminalMaterial.ofHandle (texture : String) : TerminalMaterial :=
  { texture := some texture, clip_color := Color.BLACK }

/-- `TerminalMaterialFlags` from `renderer/material.rs`, a `u32` bitflag
word: `TEXTURE = 1 << 0`. -/
def TerminalMaterialFlags.TEXTURE : Nat := 1

/-- `TerminalMaterialFlags::NONE = 0`. -/
def TerminalMaterialFlags.NONE : Nat := 0

/-- `TerminalMaterialUniformData` from `renderer/material.rs`: the uniform
data copied to the GPU buffer (clip color as linear RGBA, plus the flag word). -/
structure TerminalMaterialUniformData where
  color : Vec4
  flags : Nat
deriving DecidableEq

/-- `GpuTerminalMaterial` from `renderer/material.rs`. The GPU `Buffer` is
modelled by the uniform data written into it; the `BindGroup` (pure GPU
plumbing) is omitted. -/
structure GpuTerminalMaterial where
  uniform : TerminalMaterialUniformData
  flags : Nat
  texture : Option String
deriving DecidableEq

/-- Bevy's `Mesh2dPipeline::get_image_texture` (external collaborator, as
called by `prepare_asset`): for `Some(handle)` it returns the GPU image's
view/sampler when that image is loaded, and for `None` it falls back to a
dummy white texture, which always succeeds. The texture view/sampler pair is
collapsed to `Unit`; the GPU image store is a lookup from handle ids. -/
def getImageTexture (gpu_images : String → Option Unit) :
    Option String → Option Unit
  | some h => gpu_images h
  | none => some ()

/-- `TerminalMaterial::prepare_asset` from `renderer/material.rs`
(`impl RenderAsset for TerminalMaterial`). When `get_image_texture` fails the
material is returned as `PrepareAssetError::RetryNextUpdate` (the `error`
case). Otherwise the flag word starts at `NONE`, has `TEXTURE` or-ed in
exactly when `material.texture.is_some()`, and the uniform data is built from
`material.clip_color.as_linear_rgba_f32()` — the sRGB-to-linear conversion is
Bevy library code, passed in here as `as_linear_rgba`. -/
def TerminalMaterial.prepare_asset (as_linear_rgba : Color → Vec4)
    (gpu_images : String → Option Unit) (material : TerminalMaterial) :
    Except TerminalMaterial GpuTerminalMaterial :=
  match getImageTexture gpu_images material.texture with
  | none => Except.error material
  | some _ =>
    let flags : Nat :=
      if material.texture.isSome then
        TerminalMaterialFlags.NONE ||| TerminalMaterialFlags.TEXTURE
      else
        TerminalMaterialFlags.NONE
    Except.ok
      { uniform := { color := as_linear_rgba material.clip_color, flags := flags }
        flags := flags
        texture := material.texture }

/-- The names of `BUILT_IN_FONTS` from `renderer/font.rs`, in source order
(the embedded PNG byte payloads are opaque to this embedding). -/
def BUILT_IN_FONT_NAMES : List String :=
  ["jt_curses_12x12.png", "pastiche_8x8.png", "px437_8x8.png",
   "taffer_10x10.png", "zx_evolution_8x8.png"]

/-- `BuiltInFontHandles` from `renderer/material.rs`: font name to
`Handle<Image>` (handles modelled by their asset ids). -/
structure BuiltInFontHandles where
  map : String → Option String

/-- `add_font_resource` from `renderer/material.rs`: stores the image under
its name (`images.set(font.0, font.1)` keys the asset by the name, so the
returned handle's id is the name), records the handle in the font map, and
returns it. -/
def add_font_resource (name : String) (font_map : BuiltInFontHandles) :
    String × BuiltInFontHandles :=
  (name, ⟨fun n => if n = name then some name else font_map.map n⟩)

/-- `TerminalMaterialPlugin::build` from `renderer/material.rs`, restricted
to its observable font/material state: registers the five built-in fonts via
`add_font_resource` in source order, keeps the handle returned for
`px437_8x8.png` as `default_font`, and installs `default_font.into()` as the
default `TerminalMaterial`. Returns the final `BuiltInFontHandles` resource
and that default material. -/
def TerminalMaterialPlugin.build : BuiltInFontHandles × TerminalMaterial :=
  let m0 : BuiltInFontHandles := ⟨fun _ => none⟩
  let r1 := add_font_resource "jt_curses_12x12.png" m0
  let r2 := add_font_resource "pastiche_8x8.png" r1.2
  let r3 := add_font_resource "px437_8x8.png" r2.2
  let default_font := r3.1
  let r4 := add_font_resource "taffer_10x10.png" r3.2
  let r5 := add_font_resource "zx_evolution_8x8.png" r4.2
  (r5.2, TerminalMaterial.ofHandle default_font)

/-- A 2-component vector (Bevy `Vec2`), modelled over rationals. -/
structure Vec2 where
  x : ℚ
  y : ℚ
deriving DecidableEq

/-- A 3-component vector (Bevy `Vec3`), modelled over rationals. -/
structure Vec3 where
  x : ℚ
  y : ℚ
  z : ℚ
deriving DecidableEq

/-- `TileScaling` from `renderer/mod.rs`: how terminal mesh tiles are scaled. -/
inductive TileScaling where
  | World
  | Pixels
deriving DecidableEq

/-- `impl Default for TileScaling` from `renderer/mod.rs`: `World`. -/
def TileScaling.default : TileScaling := TileScaling.World

/-- `impl Default for TerminalPivot` from `renderer/mod.rs`: `(0.5, 0.5)`. -/
def TerminalPivot.default : Vec2 := ⟨1/2, 1/2⟩

/-- `impl Default for TilePivot` from `renderer/mod.rs`: `(0, 0)`. -/
def TilePivot.default : Vec2 := ⟨0, 0⟩

/-- Modelled from the spec: `glyph_mapping.rs` is declared by
`renderer/mod.rs` but its source is not visible. Per §4.1 the default policy
maps code `c` to tile `(c % 16, c / 16)` over the supported range 0–255, and
an out-of-range code resolves to an in-bounds fallback glyph (index 0)
rather than erroring. -/
def GlyphMapping.map (glyph_code : Nat) : Nat × Nat :=
  if glyph_code ≤ 255 then (glyph_code % 16, glyph_code / 16) else (0, 0)

/-- Modelled from the spec: `TileCell` (§3) — per-cell glyph code plus
foreground and background colors. The cell data lives in `terminal.rs` /
`renderer_tile_data.rs`, which are not in the visible source. -/
structure TileCell where
  glyph : Nat
  fg : Color
  bg : Color
deriving DecidableEq

/-- Modelled from the spec (§3): the default cell is a space glyph with white
foreground over a black background. -/
instance : Inhabited TileCell := ⟨⟨32, Color.WHITE, Color.BLACK⟩⟩

/-- Modelled from the spec: `TileGrid` (§3) — dimensions plus a dense
row-major sequence of cells, with invariant `cells.len() == width * height`
stated as a hypothesis of the theorems below. -/
structure TileGrid where
  width : Nat
  height : Nat
  cells : List TileCell
deriving DecidableEq

/-- Modelled from the spec: `FontDescriptor` (§3) — per-font metadata. The
tile pixel size is carried per-axis as `(tile_pixels_x, tile_pixels_y)` as
used by §4.4 step 1. -/
structure FontDescriptor where
  name : String
  clip_color : Color
  tile_pixels : Nat × Nat
  atlas_tile_count : Nat × Nat
deriving DecidableEq

/-- Modelled from the spec: `LayoutConfig` (§3) — terminal-mesh pivot,
per-tile pivot, and scaling mode. -/
structure LayoutConfig where
  pivot : Vec2
  tile_pivot : Vec2
  scaling_mode : TileScaling
deriving DecidableEq

/-- Modelled from the spec (§4.4 step 1): tile size in world units —
`(tile_pixels_x, tile_pixels_y)` under `Pixels` scaling, `(1,1)` under
`World` scaling. -/
def tileSize (cfg : LayoutConfig) (font : FontDescriptor) : Vec2 :=
  match cfg.scaling_mode with
  | TileScaling.Pixels => ⟨(font.tile_pixels.1 : ℚ), (font.tile_pixels.2 : ℚ)⟩
  | TileScaling.World => ⟨1, 1⟩

/-- Modelled from the spec (§4.4 step 2): mesh origin
`origin = -pivot * (width, height) * tile_size`. -/
def meshOrigin (cfg : LayoutConfig) (font : FontDescriptor)
    (width height : Nat) : Vec2 :=
  ⟨-(cfg.pivot.x) * (width : ℚ) * (tileSize cfg font).x,
   -(cfg.pivot.y) * (height : ℚ) * (tileSize cfg font).y⟩

/-- The four per-cell entries of one vertex attribute, in a fixed corner
order: bottom-left, bottom-right, top-right, top-left. -/
structure Quad (α : Type) where
  bl : α
  br : α
  tr : α
  tl : α
deriving DecidableEq

/-- The four corner entries as a list, in the fixed corner order. -/
def Quad.toList {α : Type} (q : Quad α) : List α := [q.bl, q.br, q.tr, q.tl]

/-- A quad with the same value at all four corners (§4.4 step 5: flat
per-tile colors). -/
def Quad.uniform {α : Type} (a : α) : Quad α := ⟨a, a, a, a⟩

/-- The vertex data of one cell: 4 positions, 4 UVs, 4 foreground and 4
background colors (§4.4: 4 vertices per cell). -/
structure CellVerts where
  pos : Quad Vec3
  uv : Quad Vec2
  fg : Quad Color
  bg : Quad Color
deriving DecidableEq

/-- Modelled from the spec (§4.4 steps 1–5): the vertex data of the cell at
row-major index `i` of a `width × height` grid. The cell's base position is
`origin + (x, y) * tile_size` with `x = i % width`, `y = i / width`; each
corner is offset by the tile pivot; UVs cover the glyph's atlas rectangle
`(col, row)/atlas_tile_count` to `(col+1, row+1)/atlas_tile_count`; colors
are flat across the quad. -/
def cellVerts (cfg : LayoutConfig) (font : FontDescriptor)
    (width height i : Nat) (cell : TileCell) : CellVerts :=
  let ts := tileSize cfg font
  let origin := meshOrigin cfg font width height
  let bx : ℚ := origin.x + ((i % width : Nat) : ℚ) * ts.x
  let by' : ℚ := origin.y + ((i / width : Nat) : ℚ) * ts.y
  let corner : ℚ → ℚ → Vec3 := fun cx cy =>
    ⟨bx + (cx - cfg.tile_pivot.x) * ts.x, by' + (cy - cfg.tile_pivot.y) * ts.y, 0⟩
  let cr := GlyphMapping.map cell.glyph
  let u0 : ℚ := (cr.1 : ℚ) / (font.atlas_tile_count.1 : ℚ)
  let u1 : ℚ := ((cr.1 + 1 : Nat) : ℚ) / (font.atlas_tile_count.1 : ℚ)
  let v0 : ℚ := (cr.2 : ℚ) / (font.atlas_tile_count.2 : ℚ)
  let v1 : ℚ := ((cr.2 + 1 : Nat) : ℚ) / (font.atlas_tile_count.2 : ℚ)
  { pos := ⟨corner 0 0, corner 1 0, corner 1 1, corner 0 1⟩
    uv := ⟨⟨u0, v0⟩, ⟨u1, v0⟩, ⟨u1, v1⟩, ⟨u0, v1⟩⟩
    fg := Quad.uniform cell.fg
    bg := Quad.uniform cell.bg }

/-- Modelled from the spec (§4.4 step 3): a full rebuild computes the vertex
data of every cell in row-major order. -/
def buildVerts (cfg : LayoutConfig) (font : FontDescriptor)
    (g : TileGrid) : List CellVerts :=
  g.cells.enum.map (fun p => cellVerts cfg font g.width g.height p.1 p.2)

/-- Modelled from the spec (§4.4 step 6): the constant index pattern
`{0,1,2, 2,3,0}` offset by `4 * tile_index`, for `n` tiles. -/
def buildIndices (n : Nat) : List Nat :=
  (List.range n).flatMap
    (fun t => [4 * t, 4 * t + 1, 4 * t + 2, 4 * t + 2, 4 * t + 3, 4 * t])

/-- The flattened position buffer (§3 `MeshBuffers.positions`). -/
def positionsOf (vs : List CellVerts) : List Vec3 :=
  vs.flatMap (fun v => v.pos.toList)

/-- The flattened UV buffer (§3 `MeshBuffers.uvs`). -/
def uvsOf (vs : List CellVerts) : List Vec2 :=
  vs.flatMap (fun v => v.uv.toList)

/-- The flattened foreground-color buffer (§3 `MeshBuffers.fg_colors`). -/
def fgColorsOf (vs : List CellVerts) : List Color :=
  vs.flatMap (fun v => v.fg.toList)

/-- The flattened background-color buffer (§3 `MeshBuffers.bg_colors`). -/
def bgColorsOf (vs : List CellVerts) : List Color :=
  vs.flatMap (fun v => v.bg.toList)

/-- Modelled from the spec (§4.3 `set_cell`): a single bounds-checked cell
edit. An in-range index overwrites the cell; an out-of-range index is
rejected with no mutation (the recommended `OutOfBounds` policy), and in
particular marks nothing dirty. -/
def applyEdit (g : TileGrid) (e : Nat × TileCell) : TileGrid :=
  if e.1 < g.width * g.height then
    { g with cells := g.cells.set e.1 e.2 }
  else
    g

/-- A sequence of cell edits applied in order. -/
def applyEdits : TileGrid → List (Nat × TileCell) → TileGrid
  | g, [] => g
  | g, e :: rest => applyEdits (applyEdit g e) rest

/-- The dirty set produced by an edit sequence on a grid with `n` cells:
the in-range edited indices (rejected out-of-range edits mark nothing). -/
def dirtyOf (n : Nat) (edits : List (Nat × TileCell)) : List Nat :=
  edits.filterMap (fun e => if e.1 < n then some e.1 else none)

/-- Modelled from the spec (§4.4 partial-update policy): a partial rebuild
rewrites, in place, the 4 positions/UVs/colors of each dirty cell from the
current grid state, and touches nothing else (in particular not the index
buffer). -/
def rewriteDirty (cfg : LayoutConfig) (font : FontDescriptor) (g : TileGrid) :
    List Nat → List CellVerts → List CellVerts
  | [], vs => vs
  | i :: rest, vs =>
    rewriteDirty cfg font g rest
      (vs.set i (cellVerts cfg font g.width g.height i (g.cells.getD i default)))

/-- The mesh buffers owned by the builder: per-cell vertex data plus the
index buffer (§3 `MeshBuffers`). -/
structure MeshBuffers where
  verts : List CellVerts
  indices : List Nat
deriving DecidableEq

/-- Modelled from the spec (§4.3/§4.4): the renderer's per-terminal state —
the grid, its dirty tracking (a full-dirty flag plus a list of dirty cell
indices), and the mesh buffers of the last build. -/
structure RendererState where
  grid : TileGrid
  all_dirty : Bool
  dirty : List Nat
  buffers : MeshBuffers
deriving DecidableEq

/-- Modelled from the spec (§4.4): one mesh build. When everything is dirty
(dimension/font/layout change or first build) the vertex and index buffers
are fully rebuilt; otherwise only the dirty cells' vertex data is rewritten
in place and the index buffer is untouched. Afterwards the dirty tracking is
cleared (§4.3 `clear_dirty`). -/
def rebuild (cfg : LayoutConfig) (font : FontDescriptor)
    (s : RendererState) : RendererState :=
  if s.all_dirty then
    { s with
      buffers :=
        { verts := buildVerts cfg font s.grid
          indices := buildIndices (s.grid.width * s.grid.height) }
      all_dirty := false
      dirty := [] }
  else
    { s with
      buffers :=
        { s.buffers with
          verts := rewriteDirty cfg font s.grid s.dirty s.buffers.verts }
      dirty := [] }

/-- C10: `TerminalFont::change_font` mutates only the `name` field; the clip
color, texture handle and `pixels_per_unit` are unchanged (the new texture's
metrics are not loaded by this call). -/
theorem change_font_mutates_only_name (f : TerminalFont) (font_name : String) :
    (f.change_font font_name).name = font_name ∧
    (f.change_font font_name).clip_color = f.clip_color ∧
    (f.change_font font_name).tex_handle = f.tex_handle ∧
    (f.change_font font_name).pixels_per_unit = f.pixels_per_unit := by
  simp [TerminalFont.change_font]

/-- C3: the default glyph mapping is total and pure on the supported range
0–255: every in-range code `c` maps to `(c % 16, c / 16)`, an in-bounds tile
of the 16×16 atlas. Determinism is immediate since `GlyphMapping.map` is a
function of its argument alone. -/
theorem glyph_mapping_default_total (c : Nat) (h : c ≤ 255) :
    GlyphMapping.map c = (c % 16, c / 16) ∧
    (GlyphMapping.map c).1 < 16 ∧ (GlyphMapping.map c).2 < 16 := by
  refine ⟨by simp [GlyphMapping.map, h], ?_, ?_⟩ <;> simp [GlyphMapping.map, h] <;> omega

/-- Witness for C3 at glyph code 65 (ASCII `A`). -/
theorem glyph_mapping_default_total_witness :
    GlyphMapping.map 65 = (65 % 16, 65 / 16) ∧
    (GlyphMapping.map 65).1 < 16 ∧ (GlyphMapping.map 65).2 < 16 :=
  glyph_mapping_default_total 65 (by decide)

/-- C4: for every texture present in the assets, `TerminalFont::from_texture`
accepts it and derives `pixels_per_unit = texture_height / 16` (the vertical
component of the fixed 16×16 tile count), with the remaining fields from
`Default`. -/
theorem from_texture_pixels_per_unit (font_name handle : String)
    (textures : TextureAssets) (tex : Texture)
    (htex : textures handle = some tex) :
    TerminalFont.from_texture font_name handle textures =
      some { name := font_name
             clip_color := Color.BLACK
             tex_handle := handle
             pixels_per_unit := tex.height / 16 } := by
  simp [TerminalFont.from_texture, htex, TerminalFont.default]

/-- An asset store holding one 128×128 texture. -/
def tex128Assets : TextureAssets :=
  fun k => if k = "tex128" then some ⟨128, 128⟩ else none

/-- Witness for C4: a 128×128 texture with the 16×16 atlas yields
`pixels_per_unit = 8`. -/
theorem from_texture_pixels_per_unit_witness :
    TerminalFont.from_texture "test_8x8.png" "tex128" tex128Assets =
      some { name := "test_8x8.png"
             clip_color := Color.BLACK
             tex_handle := "tex128"
             pixels_per_unit := 8 } :=
  from_texture_pixels_per_unit "test_8x8.png" "tex128" tex128Assets ⟨128, 128⟩ (by rfl)

/-- An asset store holding one 100×100 texture (not divisible by 16). -/
def unevenTexAssets : TextureAssets :=
  fun k => if k = "uneven" then some ⟨100, 100⟩ else none

/-- C5 counterexample: a 100×100 texture with the 16×16 atlas is NOT
rejected. `from_texture` succeeds (there is no divisibility check and no
`InvalidFontTexture` error anywhere in the source), the font is added to the
registry and is retrievable, with `pixels_per_unit = 100 / 16 = 6` by
truncating division. -/
theorem font_100px_registers_successfully :
    (TerminalFont.from_texture "uneven.png" "uneven" unevenTexAssets).isSome = true ∧
    ((TerminalFonts.empty.add
        ((TerminalFont.from_texture "uneven.png" "uneven" unevenTexAssets).getD
          TerminalFont.default)).get "uneven.png").isSome = true ∧
    ((TerminalFont.from_texture "uneven.png" "uneven" unevenTexAssets).getD
        TerminalFont.default).pixels_per_unit = 6 := by
  decide

/-- C5 amended: registration never rejects a font — `TerminalFonts::add`
inserts unconditionally under the font's name, the added font is retrievable,
and every other registry entry is untouched (other fonts still load). -/
theorem font_add_accepts_any (fonts : TerminalFonts) (font : TerminalFont)
    (other : String) (hother : other ≠ font.name) :
    (fonts.add font).get font.name = some font ∧
    (fonts.add font).get other = fonts.get other := by
  constructor
  · simp [TerminalFonts.add, TerminalFonts.get]
  · simp [TerminalFonts.add, TerminalFonts.get, hother]

/-- Witness for the amended C5. -/
theorem font_add_accepts_any_witness :
    (TerminalFonts.empty.add TerminalFont.default).get TerminalFont.default.name =
      some TerminalFont.default ∧
    (TerminalFonts.empty.add TerminalFont.default).get "other.png" =
      TerminalFonts.empty.get "other.png" :=
  font_add_accepts_any TerminalFonts.empty TerminalFont.default "other.png" (by decide)

/-- Helper for C6: folding `TerminalFonts::add` over fonts none of which is
named `font_name` never creates an entry for `font_name`. -/
theorem foldl_add_map_eq (l : List TerminalFont) :
    ∀ (fonts : TerminalFonts) (font_name : String),
      (∀ f ∈ l, f.name ≠ font_name) →
      (l.foldl TerminalFonts.add fonts).map font_name = fonts.map font_name := by
  induction l with
  | nil => intro fonts font_name _; rfl
  | cons f rest ih =>
    intro fonts font_name habs
    rw [List.foldl_cons, ih (fonts.add f) font_name]
    · have hf : f.name ≠ font_name := habs f (List.mem_cons_self f rest)
      have hf' : font_name ≠ f.name := fun h => hf h.symm
      simp [TerminalFonts.add, hf']
    · intro f' hf'
      exact habs f' (List.mem_cons_of_mem f hf')

/-- C6: looking up a name absent from a registry populated by any sequence of
`add` calls fails (the source's `HashMap` index panics, modelled as `none`);
in particular no default font is substituted — the result is never `some`
font. -/
theorem get_absent_font_fails (l : List TerminalFont) (font_name : String)
    (habs : ∀ f ∈ l, f.name ≠ font_name) :
    (TerminalFonts.ofList l).get font_name = none := by
  unfold TerminalFonts.ofList TerminalFonts.get
  rw [foldl_add_map_eq l TerminalFonts.empty font_name habs]
  rfl

/-- Witness for C6: a registry holding only the default font has no entry
named `missing.png`. -/
theorem get_absent_font_fails_witness :
    (TerminalFonts.ofList [TerminalFont.default]).get "missing.png" = none :=
  get_absent_font_fails [TerminalFont.default] "missing.png" (by decide)

/-- C8: whenever `prepare_asset` succeeds, the prepared flag word has the
`TEXTURE` bit set exactly when the material's `texture` is `Some`, and the
uniform's color is the material's clip color run through the linear-RGBA
conversion. -/
theorem prepared_material_flags_and_color (as_linear_rgba : Color → Vec4)
    (gpu_images : String → Option Unit) (material : TerminalMaterial)
    (gpu_mat : GpuTerminalMaterial)
    (hok : TerminalMaterial.prepare_asset as_linear_rgba gpu_images material =
      Except.ok gpu_mat) :
    ((gpu_mat.flags &&& TerminalMaterialFlags.TEXTURE ≠ 0) ↔
      material.texture.isSome = true) ∧
    gpu_mat.uniform.color = as_linear_rgba material.clip_color := by
  cases hm : material.texture with
  | none =>
    simp [TerminalMaterial.prepare_asset, getImageTexture, hm] at hok
    subst hok
    simp [TerminalMaterialFlags.TEXTURE, TerminalMaterialFlags.NONE]
  | some h =>
    cases hg : gpu_images h with
    | none =>
      simp [TerminalMaterial.prepare_asset, getImageTexture, hm, hg] at hok
    | some u =>
      simp [TerminalMaterial.prepare_asset, getImageTexture, hm, hg] at hok
      subst hok
      simp [TerminalMaterialFlags.TEXTURE, TerminalMaterialFlags.NONE]

/-- A concrete linear-RGBA conversion for the C8 witness. -/
def convEx : Color → Vec4 := fun c => ⟨c.r, c.g, c.b, c.a⟩

/-- A GPU image store with every image loaded, for the C8 witness. -/
def gpuImagesEx : String → Option Unit := fun _ => some ()

/-- A material with a texture, for the C8 witness. -/
def matEx : TerminalMaterial :=
  { clip_color := Color.BLACK, texture := some "px437_8x8.png" }

/-- The prepared material produced from `matEx`, for the C8 witness. -/
def gpuMatEx : GpuTerminalMaterial :=
  { uniform := { color := ⟨0, 0, 0, 1⟩, flags := 1 }
    flags := 1
    texture := some "px437_8x8.png" }

/-- Witness for C8 on a concrete textured material. -/
theorem prepared_material_flags_and_color_witness :
    ((gpuMatEx.flags &&& TerminalMaterialFlags.TEXTURE ≠ 0) ↔
      matEx.texture.isSome = true) ∧
    gpuMatEx.uniform.color = convEx matEx.clip_color :=
  prepared_material_flags_and_color convEx gpuImagesEx matEx gpuMatEx (by rfl)

/-- C9: the registry built at startup by `TerminalMaterialPlugin::build`
holds exactly the five built-in font names; the default font name is
`px437_8x8.png`; the default `TerminalFont` carries that name; and the
default material's texture is the handle registered for that font. -/
theorem built_in_fonts_and_default :
    (∀ n : String,
        ((TerminalMaterialPlugin.build.1).map n).isSome = true ↔
          n ∈ BUILT_IN_FONT_NAMES) ∧
    DEFAULT_FONT_NAME = "px437_8x8.png" ∧
    TerminalFont.default.name = DEFAULT_FONT_NAME ∧
    TerminalMaterialPlugin.build.2.texture = some DEFAULT_FONT_NAME := by
  refine ⟨?_, rfl, rfl, rfl⟩
  intro n
  simp only [TerminalMaterialPlugin.build, add_font_resource, BUILT_IN_FONT_NAMES]
  split_ifs with h1 h2 h3 h4 h5 <;> simp_all

/-- Each cell contributes exactly 4 entries to the flattened position buffer. -/
theorem positionsOf_length (vs : List CellVerts) :
    (positionsOf vs).length = 4 * vs.length := by
  induction vs with
  | nil => rfl
  | cons v t ih =>
    simp only [positionsOf] at ih ⊢
    rw [List.flatMap_cons, List.length_append, ih]
    simp only [Quad.toList, List.length_cons, List.length_nil]
    omega

/-- The builder's vertex list has one entry per grid cell. -/
theorem buildVerts_length (cfg : LayoutConfig) (font : FontDescriptor)
    (g : TileGrid) : (buildVerts cfg font g).length = g.cells.length := by
  simp [buildVerts, List.enum_length]

/-- The index buffer holds exactly 6 indices per tile. -/
theorem buildIndices_length (n : Nat) : (buildIndices n).length = 6 * n := by
  induction n with
  | zero => rfl
  | succ m ih =>
    simp only [buildIndices, List.range_succ, List.flatMap_append,
      List.length_append] at *
    simp [ih]
    omega

/-- C1: for every grid satisfying the `cells.len() == width * height`
invariant, the mesh buffers have exactly `4 * width * height` positions and
`6 * width * height` indices; a grid with a zero dimension yields empty
buffers (and the builder, being a total function, cannot error). -/
theorem mesh_buffer_lengths (cfg : LayoutConfig) (font : FontDescriptor)
    (g : TileGrid) (hlen : g.cells.length = g.width * g.height) :
    (positionsOf (buildVerts cfg font g)).length = 4 * (g.width * g.height) ∧
    (buildIndices (g.width * g.height)).length = 6 * (g.width * g.height) ∧
    (g.width = 0 ∨ g.height = 0 →
      positionsOf (buildVerts cfg font g) = [] ∧
      buildIndices (g.width * g.height) = []) := by
  refine ⟨?_, buildIndices_length _, ?_⟩
  · rw [positionsOf_length, buildVerts_length, hlen]
  · intro h0
    have hn : g.width * g.height = 0 := by
      rcases h0 with h | h <;> simp [h]
    constructor
    · have hz : (positionsOf (buildVerts cfg font g)).length = 0 := by
        rw [positionsOf_length, buildVerts_length, hlen, hn]
      exact List.length_eq_zero.mp hz
    · rw [hn]; rfl

/-- A default layout configuration for witnesses: centered terminal pivot,
bottom-left tile pivot, `World` scaling. -/
def cfgEx : LayoutConfig :=
  { pivot := TerminalPivot.default
    tile_pivot := TilePivot.default
    scaling_mode := TileScaling.default }

/-- A font descriptor for witnesses: the default 8×8 font with a 16×16 atlas. -/
def fontEx : FontDescriptor :=
  { name := DEFAULT_FONT_NAME
    clip_color := Color.BLACK
    tile_pixels := (8, 8)
    atlas_tile_count := (16, 16) }

/-- A 2×2 grid of default cells for the C1 witness. -/
def gridEx : TileGrid :=
  { width := 2, height := 2, cells := List.replicate 4 default }

/-- Witness for C1 on the concrete 2×2 grid. -/
theorem mesh_buffer_lengths_witness :
    gridEx.cells.length = gridEx.width * gridEx.height ∧
    ((positionsOf (buildVerts cfgEx fontEx gridEx)).length =
        4 * (gridEx.width * gridEx.height) ∧
      (buildIndices (gridEx.width * gridEx.height)).length =
        6 * (gridEx.width * gridEx.height) ∧
      (gridEx.width = 0 ∨ gridEx.height = 0 →
        positionsOf (buildVerts cfgEx fontEx gridEx) = [] ∧
        buildIndices (gridEx.width * gridEx.height) = [])) :=
  ⟨by decide, mesh_buffer_lengths cfgEx fontEx gridEx (by decide)⟩

/-- C7: rebuilding twice in a row with no intervening edits leaves the mesh
buffers identical — the first rebuild clears the dirty tracking, so the
second rewrites nothing. -/
theorem rebuild_idempotent (cfg : LayoutConfig) (font : FontDescriptor)
    (s : RendererState) :
    (rebuild cfg font (rebuild cfg font s)).buffers = (rebuild cfg font s).buffers := by
  by_cases h : s.all_dirty = true
  · simp [rebuild, h, rewriteDirty]
  · simp [rebuild, h, rewriteDirty]

/-- `applyEdit` never changes the grid width. -/
theorem applyEdit_width (g : TileGrid) (e : Nat × TileCell) :
    (applyEdit g e).width = g.width := by
  unfold applyEdit; split <;> rfl

/-- `applyEdit` never changes the grid height. -/
theorem applyEdit_height (g : TileGrid) (e : Nat × TileCell) :
    (applyEdit g e).height = g.height := by
  unfold applyEdit; split <;> rfl

/-- `applyEdit` preserves the cell-count invariant. -/
theorem applyEdit_cells_length (g : TileGrid) (e : Nat × TileCell) :
    (applyEdit g e).cells.length = g.cells.length := by
  unfold applyEdit; split <;> simp [List.length_set]

/-- `applyEdits` never changes the grid width. -/
theorem applyEdits_width (edits : List (Nat × TileCell)) :
    ∀ g : TileGrid, (applyEdits g edits).width = g.width := by
  induction edits with
  | nil => intro g; rfl
  | cons e rest ih =>
    intro g
    rw [applyEdits, ih (applyEdit g e), applyEdit_width]

/-- `applyEdits` never changes the grid height. -/
theorem applyEdits_height (edits : List (Nat × TileCell)) :
    ∀ g : TileGrid, (applyEdits g edits).height = g.height := by
  induction edits with
  | nil => intro g; rfl
  | cons e rest ih =>
    intro g
    rw [applyEdits, ih (applyEdit g e), applyEdit_height]

/-- `applyEdits` preserves the cell-count invariant. -/
theorem applyEdits_cells_length (edits : List (Nat × TileCell)) :
    ∀ g : TileGrid, (applyEdits g edits).cells.length = g.cells.length := by
  induction edits with
  | nil => intro g; rfl
  | cons e rest ih =>
    intro g
    rw [applyEdits, ih (applyEdit g e), applyEdit_cells_length]

/-- Unfolding `dirtyOf` over a leading edit. -/
theorem dirtyOf_cons (n : Nat) (e : Nat × TileCell) (rest : List (Nat × TileCell)) :
    dirtyOf n (e :: rest) =
      if e.1 < n then e.1 :: dirtyOf n rest else dirtyOf n rest := by
  by_cases he : e.1 < n
  · simp [dirtyOf, List.filterMap_cons, he]
  · simp [dirtyOf, List.filterMap_cons, he]

/-- Every dirty index is in range. -/
theorem mem_dirtyOf_lt (n : Nat) (edits : List (Nat × TileCell)) (i : Nat)
    (h : i ∈ dirtyOf n edits) : i < n := by
  induction edits with
  | nil => simp [dirtyOf] at h
  | cons e rest ih =>
    rw [dirtyOf_cons] at h
    by_cases he : e.1 < n
    · simp only [he, if_true, List.mem_cons] at h
      rcases h with h | h
      · exact h ▸ he
      · exact ih h
    · simp only [he, if_false] at h
      exact ih h

/-- Cells not touched by any in-range edit keep their value. -/
theorem applyEdits_getElem?_of_not_dirty (edits : List (Nat × TileCell)) :
    ∀ (g : TileGrid) (i : Nat), i ∉ dirtyOf (g.width * g.height) edits →
      (applyEdits g edits).cells[i]? = g.cells[i]? := by
  induction edits with
  | nil => intro g i _; rfl
  | cons e rest ih =>
    intro g i h
    rw [dirtyOf_cons] at h
    rw [applyEdits]
    have hdims : (applyEdit g e).width * (applyEdit g e).height = g.width * g.height := by
      rw [applyEdit_width, applyEdit_height]
    by_cases he : e.1 < g.width * g.height
    · simp only [he, if_true, List.mem_cons] at h
      push_neg at h
      have hrest : i ∉ dirtyOf ((applyEdit g e).width * (applyEdit g e).height) rest := by
        rw [hdims]; exact h.2
      rw [ih (applyEdit g e) i hrest]
      unfold applyEdit
      rw [if_pos he]
      exact List.getElem?_set_ne (fun hx => h.1 hx.symm)
    · simp only [he, if_false] at h
      have hrest : i ∉ dirtyOf ((applyEdit g e).width * (applyEdit g e).height) rest := by
        rw [hdims]; exact h
      rw [ih (applyEdit g e) i hrest]
      unfold applyEdit
      rw [if_neg he]

/-- A partial rebuild never changes the number of per-cell vertex entries. -/
theorem rewriteDirty_length (cfg : LayoutConfig) (font : FontDescriptor)
    (g : TileGrid) (d : List Nat) :
    ∀ vs : List CellVerts, (rewriteDirty cfg font g d vs).length = vs.length := by
  induction d with
  | nil => intro vs; rfl
  | cons j rest ih =>
    intro vs
    rw [rewriteDirty, ih, List.length_set]

/-- Pointwise description of a partial rebuild: a dirty in-range entry holds
the freshly computed vertex data of the current grid; every other entry is
untouched. -/
theorem rewriteDirty_getElem? (cfg : LayoutConfig) (font : FontDescriptor)
    (g : TileGrid) (d : List Nat) :
    ∀ (vs : List CellVerts) (i : Nat),
      (rewriteDirty cfg font g d vs)[i]? =
        if i ∈ d ∧ i < vs.length then
          some (cellVerts cfg font g.width g.height i (g.cells.getD i default))
        else vs[i]? := by
  induction d with
  | nil => intro vs i; simp [rewriteDirty]
  | cons j rest ih =>
    intro vs i
    rw [rewriteDirty, ih]
    rw [List.length_set]
    by_cases hlt : i < vs.length
    · by_cases hr : i ∈ rest
      · simp [hr, hlt, List.mem_cons]
      · by_cases hij : i = j
        · subst hij
          simp [hr, hlt, List.mem_cons, List.getElem?_set_self hlt]
        · simp [hr, hlt, hij, List.mem_cons,
            List.getElem?_set_ne (fun h => hij h.symm)]
    · have hge : vs.length ≤ i := Nat.le_of_not_lt hlt
      rw [if_neg (fun h => hlt h.2), if_neg (fun h => hlt h.2)]
      have h1 : (vs.set j (cellVerts cfg font g.width g.height j
          (g.cells.getD j default)))[i]? = none :=
        List.getElem?_eq_none (by rw [List.length_set]; exact hge)
      have h2 : vs[i]? = none := List.getElem?_eq_none hge
      rw [h1, h2]

/-- Pointwise description of a full rebuild: entry `i` is the vertex data of
cell `i`. -/
theorem buildVerts_getElem? (cfg : LayoutConfig) (font : FontDescriptor)
    (g : TileGrid) (i : Nat) :
    (buildVerts cfg font g)[i]? =
      (g.cells[i]?).map (cellVerts cfg font g.width g.height i) := by
  simp only [buildVerts, List.getElem?_map, List.getElem?_enum]
  cases g.cells[i]? <;> simp

/-- C2: for every grid satisfying the cell-count invariant and every edit
sequence, a partial rebuild that rewrites exactly the dirty cells of the
edited grid, starting from the full build of the original grid, equals a
full rebuild of the edited grid; and the index buffer is unchanged, since
the edits preserve the grid dimensions. -/
theorem partial_rebuild_matches_full (cfg : LayoutConfig) (font : FontDescriptor)
    (g : TileGrid) (edits : List (Nat × TileCell))
    (hlen : g.cells.length = g.width * g.height) :
    rewriteDirty cfg font (applyEdits g edits)
        (dirtyOf (g.width * g.height) edits) (buildVerts cfg font g) =
      buildVerts cfg font (applyEdits g edits) ∧
    buildIndices ((applyEdits g edits).width * (applyEdits g edits).height) =
      buildIndices (g.width * g.height) := by
  have hw := applyEdits_width edits g
  have hh := applyEdits_height edits g
  have hcl := applyEdits_cells_length edits g
  refine ⟨?_, by rw [hw, hh]⟩
  apply List.ext_getElem?
  intro i
  rw [rewriteDirty_getElem?, buildVerts_getElem?]
  have hbvl : (buildVerts cfg font g).length = g.width * g.height := by
    rw [buildVerts_length, hlen]
  by_cases hd : i ∈ dirtyOf (g.width * g.height) edits
  · have hi : i < g.width * g.height := mem_dirtyOf_lt _ _ _ hd
    have hi' : i < (buildVerts cfg font g).length := by rw [hbvl]; exact hi
    rw [if_pos ⟨hd, hi'⟩]
    have hi'' : i < (applyEdits g edits).cells.length := by
      rw [hcl, hlen]; exact hi
    obtain ⟨c, hc⟩ : ∃ c, (applyEdits g edits).cells[i]? = some c :=
      ⟨_, List.getElem?_eq_getElem hi''⟩
    rw [List.getD_eq_getElem?_getD, buildVerts_getElem?, hc]
    rfl
  · rw [if_neg (fun hx => hd hx.1)]
    rw [buildVerts_getElem?]
    rw [applyEdits_getElem?_of_not_dirty edits g i hd, hw, hh]

/-- A 2×1 grid with two distinct cells, for the C2 witness. -/
def gridEx2 : TileGrid :=
  { width := 2
    height := 1
    cells := [⟨65, Color.WHITE, Color.BLACK⟩, ⟨66, Color.WHITE, Color.BLACK⟩] }

/-- One edit overwriting cell 0, for the C2 witness. -/
def editsEx : List (Nat × TileCell) := [(0, ⟨67, Color.BLACK, Color.WHITE⟩)]

/-- Witness for C2 on the concrete 2×1 grid with one edit. -/
theorem partial_rebuild_matches_full_witness :
    gridEx2.cells.length = gridEx2.width * gridEx2.height ∧
    (rewriteDirty cfgEx fontEx (applyEdits gridEx2 editsEx)
        (dirtyOf (gridEx2.width * gridEx2.height) editsEx)
        (buildVerts cfgEx fontEx gridEx2) =
      buildVerts cfgEx fontEx (applyEdits gridEx2 editsEx) ∧
    buildIndices ((applyEdits gridEx2 editsEx).width *
        (applyEdits gridEx2 editsEx).height) =
      buildIndices (gridEx2.width * gridEx2.height)) :=
  ⟨by decide, partial_rebuild_matches_full cfgEx fontEx gridEx2 editsEx (by decide)⟩
